import Mathlib

/-!
# Signalling server of livelizzyapp (`server/index.js`) and its pages

A shallow embedding of the socket.io event handlers of `server/index.js`,
followed by the chat and signalling handlers of the two browser pages.
The process-wide variables (`activeViewers`, `streamActive`, `chatHistory`,
`botInterval`) and the part of socket.io's bookkeeping the handlers rely on
(the live sockets and the two rooms the code joins) form one `State`; each
handler is a function from a state to the next state and the list of
deliveries it causes, a delivery being one outbound event put on the wire
for one recipient.

Values read from the environment inside a handler (`new Date()`,
`Math.random()`, `geoip.lookup`, `socket.handshake.address`) are carried by
the event that triggers the handler.
-/

namespace LiveLizzy

/-- Connection id, `socket.id`. Room names live in the same string space. -/
abbrev SocketId := String

/-- Value stored in `activeViewers` by the `viewer:join` handler. -/
structure ViewerInfo where
  username : String
  country : String
  ip : String
deriving DecidableEq, Repr

/-- A JavaScript value, as far as the chat handlers tell values apart: the
two nullish values, booleans, numbers (the handlers only test a number
against zero), strings, and arrays or objects, which are kept opaque. -/
inductive JsVal where
  | undefined
  | null
  | bool (b : Bool)
  | num (n : Int)
  | str (s : String)
  | composite (tag : Nat)
deriving DecidableEq, Repr

/-- Record stored in `chatHistory` and broadcast as `chat:message`. The
timestamp is always a string made by the server; the other three fields hold
whatever values the handler put there. -/
structure ChatMessage where
  username : JsVal
  message : JsVal
  timestamp : String
  id : JsVal
deriving DecidableEq, Repr

/-- Payload of an inbound `chat:message`, of any shape a client can send:
either an object, given by the values of its four properties (`undefined`
for a property it does not have), or any other value. -/
inductive ChatPayload where
  | object (username message timestamp id : JsVal)
  | value (v : JsVal)
deriving DecidableEq, Repr

/-- Whether reading a property of the payload throws: it does for `null` and
`undefined` and for nothing else. -/
def ChatPayload.throws : ChatPayload → Bool
  | .value .undefined => true
  | .value .null => true
  | _ => false

/-- Value of `messageData.username`; a boolean, number, string or array has no
such property. -/
def ChatPayload.username : ChatPayload → JsVal
  | .object u _ _ _ => u
  | .value _ => .undefined

/-- Value of `messageData.message`. -/
def ChatPayload.message : ChatPayload → JsVal
  | .object _ m _ _ => m
  | .value _ => .undefined

/-- Value of `messageData.timestamp`, which the server never reads. -/
def ChatPayload.timestamp : ChatPayload → JsVal
  | .object _ _ t _ => t
  | .value _ => .undefined

/-- Value of `messageData.id`. -/
def ChatPayload.id : ChatPayload → JsVal
  | .object _ _ _ i => i
  | .value _ => .undefined

/-- JavaScript truthiness: `undefined`, `null`, `false`, `0` and the empty
string are falsy, every other value is truthy. -/
def truthyVal : JsVal → Bool
  | .undefined => false
  | .null => false
  | .bool b => b
  | .num n => n ≠ 0
  | .str s => s ≠ ""
  | .composite _ => true

/-- Comparison `a === b` of two values that arrived in different messages:
equal primitives are equal, two arrays or objects are never the same object. -/
def strictEq (a b : JsVal) : Bool :=
  match a, b with
  | .composite _, _ => false
  | _, .composite _ => false
  | x, y => decide (x = y)

/-- Random draws of one `sendBotMessage` call: the index into `BOT_MESSAGES`,
the clock reading and the random id. -/
structure BotDraw where
  index : Fin 5
  now : String
  rand : String
deriving DecidableEq, Repr

/-- Outbound events of the server. -/
inductive OutMsg where
  | streamAvailable (streamerId : SocketId)
  | streamEnded
  | viewersUpdate (count : Nat) (viewers : List ViewerInfo)
  | offer (offer : String) (viewerId : SocketId)
  | answer (answer : String)
  | iceCandidate (candidate : String) (viewerId : Option SocketId)
  | chatMessage (m : ChatMessage)
  | chatHistory (history : List ChatMessage)
deriving DecidableEq, Repr

/-- One outbound event delivered to one connection. -/
abbrev Delivery := SocketId × OutMsg

/-- Inbound events: socket.io's `connection` and `disconnect`, the client
events the server listens to, and a firing of the bot interval timer. -/
inductive Event where
  | connect (c : SocketId)
  | streamStart (c : SocketId) (d : BotDraw)
  | streamEnd (c : SocketId)
  | viewerJoin (c : SocketId) (username : String) (ip : String) (geo : Option String)
  | offer (c : SocketId) (offer : String) (streamerId : String)
  | answer (c : SocketId) (answer : String) (viewerId : String)
  | iceCandidate (c : SocketId) (candidate : String) (streamerId : Option String)
      (viewerId : Option String)
  | chatMessage (c : SocketId) (payload : ChatPayload) (now : String) (rand : String)
  | chatHistory (c : SocketId)
  | botTick (d : BotDraw)
  | disconnect (c : SocketId)
deriving DecidableEq, Repr

/-- Server state: the module-level variables of `index.js` together with the
live sockets and the members of the two rooms, in insertion order. Every live
socket is also the only member of the room named by its own id. The field
`botInterval` tells whether the interval timer behind the variable of that
name is armed. -/
structure State where
  sockets : List SocketId
  adminRoom : List SocketId
  viewerRoom : List SocketId
  activeViewers : List (SocketId × ViewerInfo)
  streamActive : Bool
  chatHistory : List ChatMessage
  botInterval : Bool
deriving DecidableEq, Repr

/-- State of a freshly started process. -/
def init : State :=
  { sockets := [], adminRoom := [], viewerRoom := [], activeViewers := [],
    streamActive := false, chatHistory := [], botInterval := false }

def MAX_CHAT_HISTORY : Nat := 100

def BOT_MESSAGES : List String :=
  ["Hello, how are you?", "What's up?", "How's it going?", "Hi, I'm a bot!",
   "What's on your mind?"]

def ADMIN_ROOM : String := "admin-room"

def VIEWER_ROOM : String := "viewer-room"

/-- Insertion into a JavaScript `Set`: an element already present keeps its place. -/
def setAdd (xs : List SocketId) (c : SocketId) : List SocketId :=
  if c ∈ xs then xs else xs ++ [c]

/-- Method `Map.prototype.set`: an existing key keeps its place and gets the new value. -/
def mapSet (m : List (SocketId × ViewerInfo)) (c : SocketId) (v : ViewerInfo) :
    List (SocketId × ViewerInfo) :=
  match m with
  | [] => [(c, v)]
  | (k, w) :: rest => if k = c then (k, v) :: rest else (k, w) :: mapSet rest c v

/-- Method `Map.prototype.delete`. -/
def mapDelete (m : List (SocketId × ViewerInfo)) (c : SocketId) :
    List (SocketId × ViewerInfo) :=
  m.filter (fun kv => kv.1 ≠ c)

/-- Members of the room `room`: one of the two named rooms, or the private
room of the live socket with that id. -/
def roomMembers (s : State) (room : String) : List SocketId :=
  if room = ADMIN_ROOM then s.adminRoom
  else if room = VIEWER_ROOM then s.viewerRoom
  else if room ∈ s.sockets then [room]
  else []

/-- Call `io.emit(msg)`: every live socket. -/
def ioEmit (s : State) (msg : OutMsg) : List Delivery :=
  s.sockets.map (fun r => (r, msg))

/-- Call `socket.emit(msg)` on the socket `c`. -/
def socketEmit (c : SocketId) (msg : OutMsg) : List Delivery :=
  [(c, msg)]

/-- Call `socket.to(room).emit(msg)` on the socket `c`: every member of the
room except `c` itself. -/
def socketTo (s : State) (c : SocketId) (room : String) (msg : OutMsg) : List Delivery :=
  ((roomMembers s room).filter (fun r => r ≠ c)).map (fun r => (r, msg))

/-- The two statements `chatHistory.push(m); if (chatHistory.length >
MAX_CHAT_HISTORY) chatHistory.shift();`. -/
def pushChat (h : List ChatMessage) (m : ChatMessage) : List ChatMessage :=
  let h1 := h ++ [m]
  if h1.length > MAX_CHAT_HISTORY then h1.tail else h1

/-- Record built by `sendBotMessage`. -/
def botMessage (d : BotDraw) : ChatMessage :=
  { username := .str "Bot", message := .str (BOT_MESSAGES.getD d.index.val ""),
    timestamp := d.now, id := .str d.rand }

/-- Body of `sendBotMessage`. -/
def sendBotMessage (s : State) (d : BotDraw) : State × List Delivery :=
  let s1 := { s with chatHistory := pushChat s.chatHistory (botMessage d) }
  (s1, ioEmit s1 (.chatMessage (botMessage d)))

/-- Function `startBotMessages`: the old timer is cleared, one message is sent
at once, and the interval timer is armed. -/
def startBotMessages (s : State) (d : BotDraw) : State × List Delivery :=
  let r := sendBotMessage s d
  ({ r.1 with botInterval := true }, r.2)

/-- Handler of `stream:start`. -/
def onStreamStart (s : State) (c : SocketId) (d : BotDraw) : State × List Delivery :=
  let s1 := { s with streamActive := true, adminRoom := setAdd s.adminRoom c }
  let out1 := socketTo s1 c VIEWER_ROOM (.streamAvailable c)
  let r := startBotMessages s1 d
  (r.1, out1 ++ r.2)

/-- Handler of `stream:end`. -/
def onStreamEnd (s : State) (c : SocketId) : State × List Delivery :=
  let s1 := { s with streamActive := false, botInterval := false }
  (s1, socketTo s1 c VIEWER_ROOM .streamEnded)

/-- Payload of `viewers:update`. -/
def viewersUpdate (s : State) : OutMsg :=
  .viewersUpdate s.activeViewers.length (s.activeViewers.map Prod.snd)

/-- Handler of `viewer:join`. -/
def onViewerJoin (s : State) (c : SocketId) (username ip : String) (geo : Option String) :
    State × List Delivery :=
  let info : ViewerInfo := { username := username, country := geo.getD "Unknown", ip := ip }
  let s1 := { s with activeViewers := mapSet s.activeViewers c info,
                     viewerRoom := setAdd s.viewerRoom c }
  let out1 := ioEmit s1 (viewersUpdate s1)
  let out2 := match s1.adminRoom with
    | [] => []
    | adminId :: _ => socketEmit c (.streamAvailable adminId)
  (s1, out1 ++ out2)

/-- Handler of `offer`. -/
def onOffer (s : State) (c : SocketId) (offer : String) (streamerId : String) :
    State × List Delivery :=
  (s, socketTo s c streamerId (.offer offer c))

/-- Handler of `answer`. -/
def onAnswer (s : State) (c : SocketId) (answer : String) (viewerId : String) :
    State × List Delivery :=
  (s, socketTo s c viewerId (.answer answer))

/-- JavaScript truthiness of an optional string: present and not empty. -/
def truthy (x : Option String) : Bool :=
  match x with
  | none => false
  | some v => v ≠ ""

/-- Handler of `ice-candidate`. -/
def onIceCandidate (s : State) (c : SocketId) (candidate : String)
    (streamerId viewerId : Option String) : State × List Delivery :=
  if truthy streamerId then
    (s, socketTo s c (streamerId.getD "") (.iceCandidate candidate (some c)))
  else if truthy viewerId then
    (s, socketTo s c (viewerId.getD "") (.iceCandidate candidate none))
  else (s, [])

/-- Record built by the `chat:message` handler: username and message are
copied, the timestamp is the server's clock, the id is the payload's when
truthy (`messageData.id || ...`) and a random string otherwise. -/
def sanitizedMessage (p : ChatPayload) (now rand : String) : ChatMessage :=
  { username := p.username, message := p.message, timestamp := now,
    id := if truthyVal p.id then p.id else .str rand }

/-- Handler of `chat:message`. For a `null` or `undefined` payload the first
property read throws inside the `try` and the `catch` only logs, so nothing
changes; every other payload is stored and broadcast. -/
def onChatMessage (s : State) (payload : ChatPayload) (now rand : String) :
    State × List Delivery :=
  if payload.throws then (s, [])
  else
    let m := sanitizedMessage payload now rand
    let s1 := { s with chatHistory := pushChat s.chatHistory m }
    (s1, ioEmit s1 (.chatMessage m))

/-- Handler of `chat:history`. -/
def onChatHistory (s : State) (c : SocketId) : State × List Delivery :=
  (s, socketEmit c (.chatHistory s.chatHistory))

/-- What socket.io does before it fires `disconnect`: the socket leaves every
room and is removed from the namespace. -/
def leaveAll (s : State) (c : SocketId) : State :=
  { s with sockets := s.sockets.filter (fun r => r ≠ c),
           adminRoom := s.adminRoom.filter (fun r => r ≠ c),
           viewerRoom := s.viewerRoom.filter (fun r => r ≠ c) }

/-- Disconnect of `c`: socket.io's cleanup followed by the `disconnect` handler. -/
def onDisconnect (s : State) (c : SocketId) : State × List Delivery :=
  let s0 := leaveAll s c
  let s1 := { s0 with activeViewers := mapDelete s0.activeViewers c }
  (s1, ioEmit s1 (viewersUpdate s1))

/-- Connection of a new socket: it joins the room named by its id. -/
def onConnect (s : State) (c : SocketId) : State × List Delivery :=
  ({ s with sockets := s.sockets ++ [c] }, [])

/-- Whether socket.io can hand out `c` as the id of a new connection: ids are
drawn fresh, so `c` is not live and is not the name of a room. -/
def freshId (s : State) (c : SocketId) : Bool :=
  decide (c ∉ s.sockets) && decide (c ≠ ADMIN_ROOM) && decide (c ≠ VIEWER_ROOM)

/-- Connection an event belongs to, if any. -/
def Event.conn : Event → Option SocketId
  | .connect c => some c
  | .streamStart c _ => some c
  | .streamEnd c => some c
  | .viewerJoin c _ _ _ => some c
  | .offer c _ _ => some c
  | .answer c _ _ => some c
  | .iceCandidate c _ _ _ => some c
  | .chatMessage c _ _ _ => some c
  | .chatHistory c => some c
  | .botTick _ => none
  | .disconnect c => some c

/-- One event processed by the server. Handlers exist only on live sockets,
so an event from a socket that is not connected does nothing; the interval
timer fires only while armed. -/
def step (s : State) (e : Event) : State × List Delivery :=
  match e with
  | .connect c => if freshId s c then onConnect s c else (s, [])
  | .botTick d => if s.botInterval then sendBotMessage s d else (s, [])
  | .streamStart c d => if c ∈ s.sockets then onStreamStart s c d else (s, [])
  | .streamEnd c => if c ∈ s.sockets then onStreamEnd s c else (s, [])
  | .viewerJoin c u ip geo => if c ∈ s.sockets then onViewerJoin s c u ip geo else (s, [])
  | .offer c o t => if c ∈ s.sockets then onOffer s c o t else (s, [])
  | .answer c a t => if c ∈ s.sockets then onAnswer s c a t else (s, [])
  | .iceCandidate c k t v => if c ∈ s.sockets then onIceCandidate s c k t v else (s, [])
  | .chatMessage c p now rand => if c ∈ s.sockets then onChatMessage s p now rand else (s, [])
  | .chatHistory c => if c ∈ s.sockets then onChatHistory s c else (s, [])
  | .disconnect c => if c ∈ s.sockets then onDisconnect s c else (s, [])

/-- State after the events `evs`, processed in order from `s`. -/
def runFrom (s : State) (evs : List Event) : State :=
  evs.foldl (fun st e => (step st e).1) s

/-- State after the events `evs`, processed in order from the initial state. -/
def run (evs : List Event) : State :=
  runFrom init evs

/-- Deliveries caused by the event `e` arriving after the events `evs`. -/
def emitted (evs : List Event) (e : Event) : List Delivery :=
  (step (run evs) e).2

/-- Record the event `e` appends to the chat log in state `s`, if any. -/
def stored (s : State) (e : Event) : Option ChatMessage :=
  match e with
  | .chatMessage c p now rand =>
    if c ∈ s.sockets then
      if p.throws then none else some (sanitizedMessage p now rand)
    else none
  | .streamStart c d => if c ∈ s.sockets then some (botMessage d) else none
  | .botTick d => if s.botInterval then some (botMessage d) else none
  | _ => none

/-- Records the server accepted during `evs`, in the order it accepted them. -/
def accepted (evs : List Event) : List ChatMessage :=
  (evs.foldl (fun (acc : State × List ChatMessage) e =>
      ((step acc.1 e).1, acc.2 ++ (stored acc.1 e).toList)) (init, [])).2

/-- Specification side: what a single connection has declared so far, read
off the event sequence alone. -/
structure Declared where
  live : Bool
  publisher : Bool
  viewer : Bool
deriving DecidableEq, Repr

/-- Specification side: effect of one event on what connection `c` has
declared. A connection is live from its connect to its disconnect, a
publisher once it has sent `stream:start`, a viewer once it has sent
`viewer:join`. -/
def declareStep (c : SocketId) (st : Declared) (e : Event) : Declared :=
  match e with
  | .connect x =>
    if x = c ∧ st.live = false ∧ c ≠ ADMIN_ROOM ∧ c ≠ VIEWER_ROOM then
      { live := true, publisher := false, viewer := false }
    else st
  | .streamStart x _ => if x = c ∧ st.live = true then { st with publisher := true } else st
  | .viewerJoin x _ _ _ => if x = c ∧ st.live = true then { st with viewer := true } else st
  | .disconnect x =>
    if x = c then { live := false, publisher := false, viewer := false } else st
  | _ => st

/-- Specification side: what connection `c` has declared after `evs`. -/
def declared (evs : List Event) (c : SocketId) : Declared :=
  evs.foldl (declareStep c) { live := false, publisher := false, viewer := false }

/-- Connection ids occurring in `evs`, each once. -/
def connections (evs : List Event) : List SocketId :=
  (evs.filterMap Event.conn).dedup

/-- Specification side: the connections that have declared themselves
viewers and have not disconnected since. -/
def liveViewers (evs : List Event) : List SocketId :=
  (connections evs).filter (fun c => (declared evs c).viewer)

/-- Invariant of the reachable states. -/
structure Inv (s : State) : Prop where
  sockets_nodup : s.sockets.Nodup
  admin_name : ADMIN_ROOM ∉ s.sockets
  viewer_name : VIEWER_ROOM ∉ s.sockets
  admin_nodup : s.adminRoom.Nodup
  admin_sub : ∀ c ∈ s.adminRoom, c ∈ s.sockets
  viewer_nodup : s.viewerRoom.Nodup
  viewer_sub : ∀ c ∈ s.viewerRoom, c ∈ s.sockets
  keys_eq : s.activeViewers.map Prod.fst = s.viewerRoom
  chat_len : s.chatHistory.length ≤ MAX_CHAT_HISTORY


/-- Agreement between a state and what each connection has declared: the
live sockets, the publisher room and the viewer room hold exactly the
connections declared live, publisher and viewer. -/
def Agrees (d : SocketId → Declared) (s : State) : Prop :=
  ∀ c, (c ∈ s.sockets ↔ (d c).live = true) ∧
       (c ∈ s.adminRoom ↔ (d c).publisher = true) ∧
       (c ∈ s.viewerRoom ↔ (d c).viewer = true)

/-! ## The browser pages (`ViewerPage.jsx`, `AdminStreamer.jsx`)

Only the handlers the claims are about: the chat handlers, which are the same
on both pages, and the signalling events the viewer page emits. -/

/-- Chat events a page reacts to. A `chat:history` payload that is not an
array is `none`. -/
inductive ClientEvent where
  | chatMessage (msg : ChatMessage)
  | chatHistory (history : Option (List ChatMessage))
deriving DecidableEq, Repr

/-- Expression `prev.slice(-n)`: the last `n` entries. -/
def sliceLast (n : Nat) (prev : List ChatMessage) : List ChatMessage :=
  prev.drop (prev.length - n)

/-- Updater of the `chat:message` handler of both pages: a message whose id
is already shown (`m.id === msg.id`) is ignored, otherwise it follows the last
99 entries. -/
def clientOnChatMessage (prev : List ChatMessage) (msg : ChatMessage) : List ChatMessage :=
  if prev.any (fun m => strictEq m.id msg.id) then prev else sliceLast 99 prev ++ [msg]

/-- Handler of `chat:history` of both pages: an array replaces the list. -/
def clientOnChatHistory (prev : List ChatMessage) (history : Option (List ChatMessage)) :
    List ChatMessage :=
  match history with
  | some h => h
  | none => prev

/-- One chat event handled by a page. -/
def clientStep (prev : List ChatMessage) (e : ClientEvent) : List ChatMessage :=
  match e with
  | .chatMessage msg => clientOnChatMessage prev msg
  | .chatHistory history => clientOnChatHistory prev history

/-- Message list of a page after the chat events `evs`, from the empty list. -/
def clientRun (evs : List ClientEvent) : List ChatMessage :=
  evs.foldl clientStep []

/-- Viewer page, handler of `stream-available`: the `offer` event the page
emits, naming the `streamerId` it was given. -/
def viewerOnStreamAvailable (self : SocketId) (streamerId : String) (offer : String) : Event :=
  .offer self offer streamerId

/-- Viewer page, `pc.onicecandidate`: the `ice-candidate` event the page emits
for a candidate that is not null; its `streamerId` is `socketRef.current.id`. -/
def viewerOnIceCandidate (self : SocketId) (candidate : Option String) : Option Event :=
  match candidate with
  | none => none
  | some k => some (.iceCandidate self k (some self) none)

/-- Deliveries the server makes for what a page emitted, if it emitted. -/
def relayed (evs : List Event) (e : Option Event) : List Delivery :=
  match e with
  | none => []
  | some ev => emitted evs ev

/-! ## Auxiliary lemmas -/

/-- Membership after `setAdd`. -/
theorem mem_setAdd {xs : List SocketId} {c x : SocketId} :
    x ∈ setAdd xs c ↔ x ∈ xs ∨ x = c := by
  unfold setAdd
  split
  · constructor
    · intro h; exact Or.inl h
    · rintro (h | h)
      · exact h
      · subst h; assumption
  · simp

/-- The list stays duplicate-free under `setAdd`. -/
theorem nodup_setAdd {xs : List SocketId} (c : SocketId) (h : xs.Nodup) :
    (setAdd xs c).Nodup := by
  unfold setAdd
  split
  · exact h
  · rename_i hc
    rw [List.nodup_append]
    refine ⟨h, List.nodup_singleton c, ?_⟩
    intro a ha hb
    simp at hb
    subst hb
    exact hc ha

/-- Keys after `mapSet`: the key is added as to a set. -/
theorem keys_mapSet (m : List (SocketId × ViewerInfo)) (c : SocketId) (v : ViewerInfo) :
    (mapSet m c v).map Prod.fst = setAdd (m.map Prod.fst) c := by
  induction m with
  | nil => simp [mapSet, setAdd]
  | cons kv rest ih =>
    obtain ⟨k, w⟩ := kv
    by_cases hk : k = c
    · subst hk; simp [mapSet, setAdd]
    · have hk2 : ¬ c = k := fun h => hk h.symm
      simp only [mapSet, if_neg hk, List.map_cons, ih]
      unfold setAdd
      by_cases hc : c ∈ List.map Prod.fst rest
      · simp [hc]
      · simp [hc, hk2]

/-- Keys after `mapDelete`: the key is filtered out. -/
theorem keys_mapDelete (m : List (SocketId × ViewerInfo)) (c : SocketId) :
    (mapDelete m c).map Prod.fst = (m.map Prod.fst).filter (fun r => r ≠ c) := by
  unfold mapDelete
  rw [List.filter_map]
  rfl

/-- One append keeps the log within its capacity. -/
theorem length_pushChat_le (h : List ChatMessage) (m : ChatMessage)
    (hl : h.length ≤ MAX_CHAT_HISTORY) : (pushChat h m).length ≤ MAX_CHAT_HISTORY := by
  unfold pushChat
  simp only
  split
  · simp; omega
  · omega

theorem inv_init : Inv init := by
  constructor <;> simp [init]

theorem inv_sendBotMessage {s : State} (d : BotDraw) (h : Inv s) :
    Inv (sendBotMessage s d).1 := by
  obtain ⟨h1, h2, h3, h4, h5, h6, h7, h8, h9⟩ := h
  exact ⟨h1, h2, h3, h4, h5, h6, h7, h8, length_pushChat_le _ _ h9⟩

theorem inv_onStreamStart {s : State} (c : SocketId) (d : BotDraw) (h : Inv s)
    (hc : c ∈ s.sockets) : Inv (onStreamStart s c d).1 := by
  obtain ⟨h1, h2, h3, h4, h5, h6, h7, h8, h9⟩ := h
  refine ⟨h1, h2, h3, nodup_setAdd c h4, ?_, h6, h7, h8, length_pushChat_le _ _ h9⟩
  intro x hx
  rcases mem_setAdd.mp hx with hx | hx
  · exact h5 x hx
  · subst hx; exact hc

theorem inv_onStreamEnd {s : State} (c : SocketId) (h : Inv s) : Inv (onStreamEnd s c).1 := by
  obtain ⟨h1, h2, h3, h4, h5, h6, h7, h8, h9⟩ := h
  exact ⟨h1, h2, h3, h4, h5, h6, h7, h8, h9⟩

theorem inv_onViewerJoin {s : State} (c : SocketId) (u ip : String) (geo : Option String)
    (h : Inv s) (hc : c ∈ s.sockets) : Inv (onViewerJoin s c u ip geo).1 := by
  obtain ⟨h1, h2, h3, h4, h5, h6, h7, h8, h9⟩ := h
  refine ⟨h1, h2, h3, h4, h5, nodup_setAdd c h6, ?_, ?_, h9⟩
  · intro x hx
    rcases mem_setAdd.mp hx with hx | hx
    · exact h7 x hx
    · subst hx; exact hc
  · show (mapSet s.activeViewers c _).map Prod.fst = setAdd s.viewerRoom c
    rw [keys_mapSet, h8]

theorem inv_onChatMessage {s : State} (p : ChatPayload) (now rand : String)
    (h : Inv s) : Inv (onChatMessage s p now rand).1 := by
  unfold onChatMessage
  split
  · exact h
  · obtain ⟨h1, h2, h3, h4, h5, h6, h7, h8, h9⟩ := h
    exact ⟨h1, h2, h3, h4, h5, h6, h7, h8, length_pushChat_le _ _ h9⟩

theorem inv_onDisconnect {s : State} (c : SocketId) (h : Inv s) : Inv (onDisconnect s c).1 := by
  obtain ⟨h1, h2, h3, h4, h5, h6, h7, h8, h9⟩ := h
  refine ⟨h1.filter _, ?_, ?_, h4.filter _, ?_, h6.filter _, ?_, ?_, h9⟩
  · exact fun hm => h2 (List.mem_filter.mp hm).1
  · exact fun hm => h3 (List.mem_filter.mp hm).1
  · intro x hx
    have := List.mem_filter.mp hx
    exact List.mem_filter.mpr ⟨h5 x this.1, this.2⟩
  · intro x hx
    have := List.mem_filter.mp hx
    exact List.mem_filter.mpr ⟨h7 x this.1, this.2⟩
  · show (mapDelete s.activeViewers c).map Prod.fst = s.viewerRoom.filter _
    rw [keys_mapDelete, h8]

theorem inv_onConnect {s : State} (c : SocketId) (h : Inv s) (hf : freshId s c = true) :
    Inv (onConnect s c).1 := by
  obtain ⟨h1, h2, h3, h4, h5, h6, h7, h8, h9⟩ := h
  simp only [freshId, Bool.and_eq_true, decide_eq_true_eq] at hf
  obtain ⟨⟨hf1, hf2⟩, hf3⟩ := hf
  refine ⟨?_, ?_, ?_, h4, ?_, h6, ?_, h8, h9⟩
  · show (s.sockets ++ [c]).Nodup
    rw [List.nodup_append]
    refine ⟨h1, List.nodup_singleton c, ?_⟩
    intro a ha hb
    simp at hb
    subst hb
    exact hf1 ha
  · show ADMIN_ROOM ∉ s.sockets ++ [c]
    simp only [List.mem_append, List.mem_singleton, not_or]
    exact ⟨h2, fun hh => hf2 hh.symm⟩
  · show VIEWER_ROOM ∉ s.sockets ++ [c]
    simp only [List.mem_append, List.mem_singleton, not_or]
    exact ⟨h3, fun hh => hf3 hh.symm⟩
  · intro x hx
    exact List.mem_append_left _ (h5 x hx)
  · intro x hx
    exact List.mem_append_left _ (h7 x hx)

/-- Every event preserves the invariant. -/
theorem inv_step {s : State} (e : Event) (h : Inv s) : Inv (step s e).1 := by
  cases e with
  | connect c =>
    simp only [step]
    by_cases hf : freshId s c = true
    · rw [if_pos hf]; exact inv_onConnect c h hf
    · rw [if_neg hf]; exact h
  | botTick d =>
    simp only [step]
    by_cases hb : s.botInterval = true
    · rw [if_pos hb]; exact inv_sendBotMessage d h
    · rw [if_neg hb]; exact h
  | streamStart c d =>
    simp only [step]
    by_cases hc : c ∈ s.sockets
    · rw [if_pos hc]; exact inv_onStreamStart c d h hc
    · rw [if_neg hc]; exact h
  | streamEnd c =>
    simp only [step]
    by_cases hc : c ∈ s.sockets
    · rw [if_pos hc]; exact inv_onStreamEnd c h
    · rw [if_neg hc]; exact h
  | viewerJoin c u ip geo =>
    simp only [step]
    by_cases hc : c ∈ s.sockets
    · rw [if_pos hc]; exact inv_onViewerJoin c u ip geo h hc
    · rw [if_neg hc]; exact h
  | offer c o t =>
    simp only [step]
    by_cases hc : c ∈ s.sockets
    · rw [if_pos hc]; exact h
    · rw [if_neg hc]; exact h
  | answer c o t =>
    simp only [step]
    by_cases hc : c ∈ s.sockets
    · rw [if_pos hc]; exact h
    · rw [if_neg hc]; exact h
  | iceCandidate c k t v =>
    simp only [step]
    by_cases hc : c ∈ s.sockets
    · rw [if_pos hc]
      unfold onIceCandidate
      split
      · exact h
      · split <;> exact h
    · rw [if_neg hc]; exact h
  | chatMessage c p now rand =>
    simp only [step]
    by_cases hc : c ∈ s.sockets
    · rw [if_pos hc]; exact inv_onChatMessage p now rand h
    · rw [if_neg hc]; exact h
  | chatHistory c =>
    simp only [step]
    by_cases hc : c ∈ s.sockets
    · rw [if_pos hc]; exact h
    · rw [if_neg hc]; exact h
  | disconnect c =>
    simp only [step]
    by_cases hc : c ∈ s.sockets
    · rw [if_pos hc]; exact inv_onDisconnect c h
    · rw [if_neg hc]; exact h

theorem inv_runFrom (evs : List Event) {s : State} (h : Inv s) : Inv (runFrom s evs) := by
  induction evs generalizing s with
  | nil => exact h
  | cons e rest ih => exact ih (inv_step e h)

/-- Every reachable state satisfies the invariant. -/
theorem inv_run (evs : List Event) : Inv (run evs) :=
  inv_runFrom evs inv_init

theorem run_snoc (evs : List Event) (e : Event) :
    run (evs ++ [e]) = (step (run evs) e).1 := by
  simp [run, runFrom, List.foldl_append]


/-- One event keeps the state in agreement with what the connections declared. -/
theorem agrees_step {d : SocketId → Declared} {s : State} (e : Event)
    (ha : Agrees d s) (hi : Inv s) :
    Agrees (fun c => declareStep c (d c) e) (step s e).1 := by
  intro c
  obtain ⟨h1, h2, h3⟩ := ha c
  cases e with
  | connect x =>
    by_cases hf : freshId s x = true
    · have hf2 := hf
      simp only [freshId, Bool.and_eq_true, decide_eq_true_eq] at hf2
      obtain ⟨⟨hf1, hfa⟩, hfv⟩ := hf2
      by_cases hx : x = c
      · subst hx
        have hl : (d x).live = false := by
          cases hlv : (d x).live
          · rfl
          · exact absurd (h1.mpr hlv) hf1
        have hna : x ∉ s.adminRoom := fun hm => hf1 (hi.admin_sub x hm)
        have hnv : x ∉ s.viewerRoom := fun hm => hf1 (hi.viewer_sub x hm)
        simp [step, hf, onConnect, declareStep, hl, hfa, hfv, hna, hnv]
      · have hx2 : ¬ c = x := fun h => hx h.symm
        simp [step, hf, onConnect, declareStep, hx, hx2, h1, h2, h3]
    · have hst : declareStep c (d c) (.connect x) = d c := by
        by_cases hx : x = c
        · subst hx
          simp only [freshId, Bool.and_eq_true, decide_eq_true_eq, not_and, not_not] at hf
          simp only [declareStep]
          rw [if_neg]
          rintro ⟨-, hl, hna, hnv⟩
          have hns : x ∉ s.sockets := fun hm => by
            have := h1.mp hm
            rw [hl] at this
            exact Bool.noConfusion this
          exact hnv (hf ⟨hns, hna⟩)
        · simp [declareStep, hx]
      simp only [step, if_neg hf, hst]
      exact ⟨h1, h2, h3⟩
  | botTick b =>
    by_cases hb : s.botInterval = true
    · simp only [step, if_pos hb, declareStep]; exact ⟨h1, h2, h3⟩
    · simp only [step, if_neg hb, declareStep]; exact ⟨h1, h2, h3⟩
  | streamStart x b =>
    by_cases hc : x ∈ s.sockets
    · simp only [step, if_pos hc, declareStep]
      show (c ∈ s.sockets ↔ _) ∧ (c ∈ setAdd s.adminRoom x ↔ _) ∧ (c ∈ s.viewerRoom ↔ _)
      rw [mem_setAdd]
      by_cases hx : x = c
      · subst hx
        simp [h1.mp hc, h1, h3, hc]
      · have hx2 : ¬ c = x := fun h => hx h.symm
        simp [hx, hx2, h1, h2, h3]
    · have hst : declareStep c (d c) (.streamStart x b) = d c := by
        by_cases hx : x = c
        · subst hx
          have : ¬ (d x).live = true := fun hl => hc (h1.mpr hl)
          simp [declareStep, this]
        · simp [declareStep, hx]
      simp only [step, if_neg hc, hst]
      exact ⟨h1, h2, h3⟩
  | streamEnd x =>
    by_cases hc : x ∈ s.sockets
    · simp only [step, if_pos hc, declareStep]; exact ⟨h1, h2, h3⟩
    · simp only [step, if_neg hc, declareStep]; exact ⟨h1, h2, h3⟩
  | viewerJoin x u ip geo =>
    by_cases hc : x ∈ s.sockets
    · simp only [step, if_pos hc, declareStep]
      show (c ∈ s.sockets ↔ _) ∧ (c ∈ s.adminRoom ↔ _) ∧ (c ∈ setAdd s.viewerRoom x ↔ _)
      rw [mem_setAdd]
      by_cases hx : x = c
      · subst hx
        simp [h1.mp hc, h1, h2, hc]
      · have hx2 : ¬ c = x := fun h => hx h.symm
        simp [hx, hx2, h1, h2, h3]
    · have hst : declareStep c (d c) (.viewerJoin x u ip geo) = d c := by
        by_cases hx : x = c
        · subst hx
          have : ¬ (d x).live = true := fun hl => hc (h1.mpr hl)
          simp [declareStep, this]
        · simp [declareStep, hx]
      simp only [step, if_neg hc, hst]
      exact ⟨h1, h2, h3⟩
  | offer x o t =>
    by_cases hc : x ∈ s.sockets
    · simp only [step, if_pos hc, declareStep]; exact ⟨h1, h2, h3⟩
    · simp only [step, if_neg hc, declareStep]; exact ⟨h1, h2, h3⟩
  | answer x o t =>
    by_cases hc : x ∈ s.sockets
    · simp only [step, if_pos hc, declareStep]; exact ⟨h1, h2, h3⟩
    · simp only [step, if_neg hc, declareStep]; exact ⟨h1, h2, h3⟩
  | iceCandidate x k t v =>
    have hsame : (step s (.iceCandidate x k t v)).1 = s := by
      simp only [step, onIceCandidate]
      split
      · split
        · rfl
        · split <;> rfl
      · rfl
    rw [hsame]; exact ⟨h1, h2, h3⟩
  | chatMessage x p now rand =>
    by_cases hc : x ∈ s.sockets
    · simp only [step, if_pos hc, declareStep, onChatMessage]
      split <;> exact ⟨h1, h2, h3⟩
    · simp only [step, if_neg hc, declareStep]; exact ⟨h1, h2, h3⟩
  | chatHistory x =>
    by_cases hc : x ∈ s.sockets
    · simp only [step, if_pos hc, declareStep]; exact ⟨h1, h2, h3⟩
    · simp only [step, if_neg hc, declareStep]; exact ⟨h1, h2, h3⟩
  | disconnect x =>
    by_cases hc : x ∈ s.sockets
    · simp only [step, if_pos hc, declareStep]
      show (c ∈ s.sockets.filter _ ↔ _) ∧ (c ∈ s.adminRoom.filter _ ↔ _) ∧
        (c ∈ s.viewerRoom.filter _ ↔ _)
      by_cases hx : x = c
      · subst hx
        simp
      · have hx2 : ¬ c = x := fun h => hx h.symm
        simp [hx, hx2, h1, h2, h3]
    · have hst : declareStep c (d c) (.disconnect x) = d c := by
        by_cases hx : x = c
        · subst hx
          have hl : (d x).live = false := by
            cases hlv : (d x).live
            · rfl
            · exact absurd (h1.mpr hlv) hc
          have hp : (d x).publisher = false := by
            cases hlv : (d x).publisher
            · rfl
            · exact absurd (hi.admin_sub x (h2.mpr hlv)) hc
          have hv : (d x).viewer = false := by
            cases hlv : (d x).viewer
            · rfl
            · exact absurd (hi.viewer_sub x (h3.mpr hlv)) hc
          simp only [declareStep, if_true]
          cases hd : d x
          simp_all
        · simp [declareStep, hx]
      simp only [step, if_neg hc, hst]
      exact ⟨h1, h2, h3⟩

theorem declared_snoc (evs : List Event) (e : Event) (c : SocketId) :
    declared (evs ++ [e]) c = declareStep c (declared evs c) e := by
  simp [declared, List.foldl_append]

/-- Every reachable state agrees with what the connections declared. -/
theorem agrees_run (evs : List Event) : Agrees (declared evs) (run evs) := by
  induction evs using List.reverseRecOn with
  | nil =>
    intro c
    simp [declared, run, runFrom, init]
  | append_singleton evs e ih =>
    rw [run_snoc]
    have := agrees_step e ih (inv_run evs)
    intro c
    rw [declared_snoc]
    exact this c


theorem declareStep_other {c : SocketId} (st : Declared) (e : Event)
    (h : e.conn ≠ some c) : declareStep c st e = st := by
  cases e <;> simp only [Event.conn, ne_eq, Option.some.injEq] at h <;>
    simp [declareStep, h]

/-- A connection with no event of its own has declared nothing. -/
theorem declared_of_not_mem (evs : List Event) (c : SocketId)
    (h : c ∉ evs.filterMap Event.conn) :
    declared evs c = { live := false, publisher := false, viewer := false } := by
  induction evs using List.reverseRecOn with
  | nil => rfl
  | append_singleton evs e ih =>
    rw [List.filterMap_append, List.mem_append, not_or] at h
    rw [declared_snoc, ih h.1]
    apply declareStep_other
    intro he
    apply h.2
    simp [List.filterMap, he]

theorem mem_liveViewers (evs : List Event) (c : SocketId) :
    c ∈ liveViewers evs ↔ (declared evs c).viewer = true := by
  unfold liveViewers connections
  rw [List.mem_filter, List.mem_dedup]
  constructor
  · exact fun h => h.2
  · intro h
    refine ⟨?_, h⟩
    by_contra hn
    rw [declared_of_not_mem evs c hn] at h
    exact Bool.noConfusion h

theorem nodup_liveViewers (evs : List Event) : (liveViewers evs).Nodup :=
  (List.nodup_dedup _).filter _

/-- The presence map has as many entries as there are live declared viewers. -/
theorem length_activeViewers (evs : List Event) :
    (run evs).activeViewers.length = (liveViewers evs).length := by
  have hi := inv_run evs
  have hk : (run evs).activeViewers.length = (run evs).viewerRoom.length := by
    rw [← hi.keys_eq, List.length_map]
  rw [hk]
  apply List.Perm.length_eq
  rw [List.perm_ext_iff_of_nodup hi.viewer_nodup (nodup_liveViewers evs)]
  intro c
  rw [mem_liveViewers]
  exact (agrees_run evs c).2.2

/-- Appending to the last hundred of `ms` gives the last hundred of `ms ++ [m]`. -/
theorem pushChat_drop (ms : List ChatMessage) (m : ChatMessage) :
    pushChat (ms.drop (ms.length - MAX_CHAT_HISTORY)) m =
      (ms ++ [m]).drop ((ms ++ [m]).length - MAX_CHAT_HISTORY) := by
  unfold pushChat MAX_CHAT_HISTORY
  simp only [List.length_append, List.length_drop, List.length_singleton]
  by_cases hn : ms.length < 100
  · have h0 : ms.length - 100 = 0 := by omega
    have h1 : ms.length + 1 - 100 = 0 := by omega
    rw [h0, h1]
    simp only [List.drop_zero, Nat.sub_zero]
    rw [if_neg (by omega)]
  · have h1 : ms.length + 1 - 100 = (ms.length - 100) + 1 := by omega
    rw [if_pos (by omega), h1, ← List.drop_drop, List.drop_one,
      List.drop_append_of_le_length (by omega)]

/-- Appends from the empty log keep the last hundred records. -/
theorem foldl_pushChat (ms : List ChatMessage) :
    ms.foldl pushChat [] = ms.drop (ms.length - MAX_CHAT_HISTORY) := by
  induction ms using List.reverseRecOn with
  | nil => rfl
  | append_singleton ms m ih =>
    rw [List.foldl_append, List.foldl_cons, List.foldl_nil, ih, pushChat_drop]

/-- The log changes by one append of the stored record, or not at all. -/
theorem chatHistory_step (s : State) (e : Event) :
    (step s e).1.chatHistory = (stored s e).toList.foldl pushChat s.chatHistory := by
  cases e with
  | chatMessage c p now rand =>
    by_cases hc : c ∈ s.sockets
    · by_cases ht : p.throws = true <;> simp [step, stored, hc, onChatMessage, ht]
    · simp [step, stored, hc]
  | streamStart c d =>
    by_cases hc : c ∈ s.sockets
    · simp [step, stored, hc, onStreamStart, startBotMessages, sendBotMessage]
    · simp [step, stored, hc]
  | botTick d =>
    by_cases hb : s.botInterval = true
    · simp [step, stored, hb, sendBotMessage]
    · simp [step, stored, hb]
  | connect c =>
    by_cases hf : freshId s c = true <;> simp [step, stored, hf, onConnect]
  | streamEnd c =>
    by_cases hc : c ∈ s.sockets <;> simp [step, stored, hc, onStreamEnd]
  | viewerJoin c u ip geo =>
    by_cases hc : c ∈ s.sockets <;> simp [step, stored, hc, onViewerJoin]
  | offer c o t =>
    by_cases hc : c ∈ s.sockets <;> simp [step, stored, hc, onOffer]
  | answer c o t =>
    by_cases hc : c ∈ s.sockets <;> simp [step, stored, hc, onAnswer]
  | iceCandidate c k t v =>
    simp only [step, stored, onIceCandidate, Option.toList, List.foldl_nil]
    split
    · split
      · rfl
      · split <;> rfl
    · rfl
  | chatHistory c =>
    by_cases hc : c ∈ s.sockets <;> simp [step, stored, hc, onChatHistory]
  | disconnect c =>
    by_cases hc : c ∈ s.sockets <;> simp [step, stored, hc, onDisconnect, leaveAll]

theorem accepted_fold_fst (evs : List Event) :
    (evs.foldl (fun (acc : State × List ChatMessage) e =>
      ((step acc.1 e).1, acc.2 ++ (stored acc.1 e).toList)) (init, [])).1 = run evs := by
  induction evs using List.reverseRecOn with
  | nil => rfl
  | append_singleton evs e ih =>
    rw [run_snoc, List.foldl_append, List.foldl_cons, List.foldl_nil, ih]

theorem accepted_snoc (evs : List Event) (e : Event) :
    accepted (evs ++ [e]) = accepted evs ++ (stored (run evs) e).toList := by
  unfold accepted
  rw [List.foldl_append, List.foldl_cons, List.foldl_nil, accepted_fold_fst]

/-- The server log is the fold of the appends over the accepted records. -/
theorem chatHistory_run (evs : List Event) :
    (run evs).chatHistory = (accepted evs).foldl pushChat [] := by
  induction evs using List.reverseRecOn with
  | nil => rfl
  | append_singleton evs e ih =>
    rw [run_snoc, chatHistory_step, accepted_snoc, List.foldl_append, ih]


/-- The room named by a live socket's id holds that socket alone. -/
theorem roomMembers_socket {s : State} (hi : Inv s) {t : SocketId} (ht : t ∈ s.sockets) :
    roomMembers s t = [t] := by
  have h1 : t ≠ ADMIN_ROOM := fun h => hi.admin_name (h ▸ ht)
  have h2 : t ≠ VIEWER_ROOM := fun h => hi.viewer_name (h ▸ ht)
  simp [roomMembers, h1, h2, ht]

theorem roomMembers_none {s : State} {t : String} (h1 : t ≠ ADMIN_ROOM) (h2 : t ≠ VIEWER_ROOM)
    (ht : t ∉ s.sockets) : roomMembers s t = [] := by
  simp [roomMembers, h1, h2, ht]

theorem socketTo_socket {s : State} (hi : Inv s) {c t : SocketId} (ht : t ∈ s.sockets)
    (hne : t ≠ c) (msg : OutMsg) : socketTo s c t msg = [(t, msg)] := by
  simp [socketTo, roomMembers_socket hi ht, hne]

theorem socketTo_self {s : State} (hi : Inv s) {c : SocketId} (hc : c ∈ s.sockets)
    (msg : OutMsg) : socketTo s c c msg = [] := by
  simp [socketTo, roomMembers_socket hi hc]

theorem socketTo_none {s : State} {c : SocketId} {t : String} (h1 : t ≠ ADMIN_ROOM)
    (h2 : t ≠ VIEWER_ROOM) (ht : t ∉ s.sockets) (msg : OutMsg) : socketTo s c t msg = [] := by
  simp [socketTo, roomMembers_none h1 h2 ht]

/-- A delivery of `socket.to(room).emit` goes to a room member other than the sender. -/
theorem mem_socketTo {s : State} {c : SocketId} {t : String} {msg : OutMsg} {r : SocketId}
    {m : OutMsg} (h : (r, m) ∈ socketTo s c t msg) :
    m = msg ∧ r ≠ c ∧ r ∈ roomMembers s t := by
  unfold socketTo at h
  rw [List.mem_map] at h
  obtain ⟨x, hx, hxe⟩ := h
  rw [List.mem_filter] at hx
  simp only [Prod.mk.injEq] at hxe
  obtain ⟨rfl, rfl⟩ := hxe
  exact ⟨rfl, by simpa using hx.2, hx.1⟩

/-- Adding a member that is already there changes nothing. -/
theorem setAdd_of_mem {xs : List SocketId} {c : SocketId} (h : c ∈ xs) : setAdd xs c = xs := by
  simp [setAdd, h]

/-- An event other than the disconnect of `c` removes `c` from no room. -/
theorem step_keeps_rooms (s : State) (e : Event) (c : SocketId) (he : e ≠ .disconnect c) :
    (c ∈ s.adminRoom → c ∈ (step s e).1.adminRoom) ∧
    (c ∈ s.viewerRoom → c ∈ (step s e).1.viewerRoom) := by
  cases e with
  | connect x =>
    by_cases hf : freshId s x = true <;> simp [step, hf, onConnect]
  | botTick d =>
    by_cases hb : s.botInterval = true <;> simp [step, hb, sendBotMessage]
  | streamStart x d =>
    by_cases hc : x ∈ s.sockets
    · simp only [step, if_pos hc]
      exact ⟨fun h => mem_setAdd.mpr (Or.inl h), fun h => h⟩
    · simp [step, hc]
  | streamEnd x =>
    by_cases hc : x ∈ s.sockets <;> simp [step, hc, onStreamEnd]
  | viewerJoin x u ip geo =>
    by_cases hc : x ∈ s.sockets
    · simp only [step, if_pos hc]
      exact ⟨fun h => h, fun h => mem_setAdd.mpr (Or.inl h)⟩
    · simp [step, hc]
  | offer x o t =>
    by_cases hc : x ∈ s.sockets <;> simp [step, hc, onOffer]
  | answer x o t =>
    by_cases hc : x ∈ s.sockets <;> simp [step, hc, onAnswer]
  | iceCandidate x k t v =>
    have hsame : (step s (.iceCandidate x k t v)).1 = s := by
      simp only [step, onIceCandidate]
      split
      · split
        · rfl
        · split <;> rfl
      · rfl
    rw [hsame]
    exact ⟨fun h => h, fun h => h⟩
  | chatMessage x p now rand =>
    by_cases hc : x ∈ s.sockets
    · by_cases ht : p.throws = true <;> simp [step, hc, onChatMessage, ht]
    · simp [step, hc]
  | chatHistory x =>
    by_cases hc : x ∈ s.sockets <;> simp [step, hc, onChatHistory]
  | disconnect x =>
    have hx : c ≠ x := fun h => he (by rw [h])
    by_cases hc : x ∈ s.sockets
    · simp only [step, if_pos hc]
      exact ⟨fun h => List.mem_filter.mpr ⟨h, by simpa using hx⟩,
        fun h => List.mem_filter.mpr ⟨h, by simpa using hx⟩⟩
    · simp [step, hc]

/-- Two values that are not `===` and of which one is no array or object differ. -/
theorem ne_of_strictEq_false {a b : JsVal} (h : strictEq a b = false)
    (hb : ∀ t, b ≠ .composite t) : a ≠ b := by
  intro hab
  subst hab
  cases a <;> simp [strictEq] at h
  exact hb _ rfl

/-- The `chat:message` updater keeps the ids of the shown messages distinct,
for a message whose id is a primitive value. -/
theorem nodup_clientOnChatMessage (prev : List ChatMessage) (msg : ChatMessage)
    (hid : ∀ t, msg.id ≠ .composite t)
    (h : (prev.map (fun m => m.id)).Nodup) :
    ((clientOnChatMessage prev msg).map (fun m => m.id)).Nodup := by
  unfold clientOnChatMessage
  split
  · exact h
  · rename_i hany
    simp only [List.any_eq_true, not_exists, not_and, Bool.not_eq_true] at hany
    simp only [sliceLast, List.map_append, List.map_cons, List.map_nil, List.map_drop]
    rw [List.nodup_append]
    refine ⟨h.sublist (List.drop_sublist _ _), List.nodup_singleton _, ?_⟩
    intro a ha hb
    simp only [List.mem_singleton] at hb
    subst hb
    have hm := (List.drop_sublist _ _).subset ha
    rw [List.mem_map] at hm
    obtain ⟨m, hm1, hm2⟩ := hm
    exact ne_of_strictEq_false (hany m hm1) hid hm2

/-- A live connection that sends `stream:start` is a member of the publisher
room afterwards, and is still live. -/
theorem mem_adminRoom_streamStart {s : State} {c : SocketId} (hc : c ∈ s.sockets)
    (d : BotDraw) :
    c ∈ (step s (.streamStart c d)).1.adminRoom ∧ c ∈ (step s (.streamStart c d)).1.sockets := by
  simp only [step, if_pos hc]
  exact ⟨mem_setAdd.mpr (Or.inr rfl), hc⟩

/-- A live connection that sends `viewer:join` is a member of the viewer room
afterwards, and is still live. -/
theorem mem_viewerRoom_viewerJoin {s : State} {c : SocketId} (hc : c ∈ s.sockets)
    (u ip : String) (geo : Option String) :
    c ∈ (step s (.viewerJoin c u ip geo)).1.viewerRoom ∧
      c ∈ (step s (.viewerJoin c u ip geo)).1.sockets := by
  simp only [step, if_pos hc]
  exact ⟨mem_setAdd.mpr (Or.inr rfl), hc⟩

/-- State after two more events. -/
theorem run_snoc_two (evs : List Event) (e1 e2 : Event) :
    run (evs ++ [e1, e2]) = (step (step (run evs) e1).1 e2).1 := by
  simp [run, runFrom, List.foldl_append]

/-- Deliveries of an offer from a live connection: the members of the named
room other than the sender. -/
theorem emitted_offer (evs : List Event) {c : SocketId} (hc : c ∈ (run evs).sockets)
    (o : String) (t : String) :
    emitted evs (.offer c o t) = socketTo (run evs) c t (.offer o c) := by
  simp only [emitted, step, if_pos hc, onOffer]

/-! ## The claims -/

/-- C1, as stated, fails: once two connections have each sent `stream:start`
the publisher room has two members. -/
theorem two_publishers_counterexample :
    (run [.connect "A", .connect "B", .streamStart "A" ⟨0, "t1", "r1"⟩,
      .streamStart "B" ⟨1, "t2", "r2"⟩]).adminRoom = ["A", "B"] ∧
    ¬ (run [.connect "A", .connect "B", .streamStart "A" ⟨0, "t1", "r1"⟩,
      .streamStart "B" ⟨1, "t2", "r2"⟩]).adminRoom.length ≤ 1 := by
  decide

/-- C1, amended: after every event sequence the publisher room holds exactly
the live connections that have sent `stream:start` since they connected, each
once; a `stream:start` is never rejected. -/
theorem adminRoom_holds_declared_publishers (evs : List Event) (c : SocketId) :
    (c ∈ (run evs).adminRoom ↔ (declared evs c).publisher = true) ∧
      (run evs).adminRoom.Nodup :=
  ⟨(agrees_run evs c).2.1, (inv_run evs).admin_nodup⟩

/-- C2, the code at the failing input: publisher A disconnects while viewer B
watches; the flag `streamActive` and the bot timer stay on and B is sent only
`viewers:update`, no `stream-ended`. -/
theorem publisher_disconnect_leaves_stream_active :
    (run [.connect "A", .connect "B", .viewerJoin "B" "bob" "10.0.0.2" none,
      .streamStart "A" ⟨0, "t1", "r1"⟩]).adminRoom = ["A"] ∧
    (run [.connect "A", .connect "B", .viewerJoin "B" "bob" "10.0.0.2" none,
      .streamStart "A" ⟨0, "t1", "r1"⟩]).viewerRoom = ["B"] ∧
    (step (run [.connect "A", .connect "B", .viewerJoin "B" "bob" "10.0.0.2" none,
      .streamStart "A" ⟨0, "t1", "r1"⟩]) (.disconnect "A")).1.streamActive = true ∧
    (step (run [.connect "A", .connect "B", .viewerJoin "B" "bob" "10.0.0.2" none,
      .streamStart "A" ⟨0, "t1", "r1"⟩]) (.disconnect "A")).1.botInterval = true ∧
    (step (run [.connect "A", .connect "B", .viewerJoin "B" "bob" "10.0.0.2" none,
      .streamStart "A" ⟨0, "t1", "r1"⟩]) (.disconnect "A")).2 =
      [("B", .viewersUpdate 1 [⟨"bob", "Unknown", "10.0.0.2"⟩])] := by
  decide

/-- C3, as stated, fails: with no publisher at all, an offer from B whose
payload names the live connection C is delivered to C. -/
theorem offer_without_publisher_counterexample :
    (run [.connect "B", .connect "C"]).adminRoom = [] ∧
    (run [.connect "B", .connect "C"]).streamActive = false ∧
    emitted [.connect "B", .connect "C"] (.offer "B" "sdp" "C") =
      [("C", .offer "sdp" "B")] := by
  decide

/-- C3, amended: in every reachable state, whether or not a publisher is
active, an offer from a live connection is delivered exactly to the members
of the room its `streamerId` names, other than the sender, as that offer with
the sender as `viewerId`: to the connection t alone when `streamerId` is the id
t of another live connection, and to nobody when the publisher room is empty
and `streamerId` names neither a live connection other than the sender nor the
viewer room. -/
theorem offer_goes_to_named_room_only (evs : List Event) (c : SocketId) (o : String)
    (t : String) :
    ((run evs).adminRoom = [] → (t ∉ (run evs).sockets ∨ t = c) → t ≠ VIEWER_ROOM →
      emitted evs (.offer c o t) = []) ∧
    (∀ r m, (r, m) ∈ emitted evs (.offer c o t) →
      m = .offer o c ∧ r ≠ c ∧ r ∈ roomMembers (run evs) t) ∧
    (c ∈ (run evs).sockets → t ∈ (run evs).sockets → t ≠ c →
      emitted evs (.offer c o t) = [(t, .offer o c)]) ∧
    (c ∈ (run evs).sockets →
      emitted evs (.offer c o t) =
        ((roomMembers (run evs) t).filter (fun r => r ≠ c)).map (fun r => (r, .offer o c))) := by
  refine ⟨?_, ?_, ?_, ?_⟩
  · intro hno ht hv
    simp only [emitted, step]
    by_cases hc : c ∈ (run evs).sockets
    · rw [if_pos hc]
      simp only [onOffer]
      by_cases ha : t = ADMIN_ROOM
      · simp [socketTo, roomMembers, ha, hno]
      · rcases ht with ht | ht
        · exact socketTo_none ha hv ht _
        · subst ht
          exact socketTo_self (inv_run evs) hc _
    · rw [if_neg hc]
  · intro r m hm
    simp only [emitted, step] at hm
    by_cases hc : c ∈ (run evs).sockets
    · rw [if_pos hc] at hm
      exact mem_socketTo hm
    · rw [if_neg hc] at hm
      simp at hm
  · intro hc ht hne
    rw [emitted_offer evs hc]
    exact socketTo_socket (inv_run evs) ht hne _
  · intro hc
    rw [emitted_offer evs hc]
    rfl

/-- Instances of the amended C3, both with no publisher: an offer from B naming
the unknown id Z is dropped, and an offer from B naming the live connection C
is delivered to C alone. -/
theorem offer_goes_to_named_room_only_witness :
    emitted [.connect "B"] (.offer "B" "sdp" "Z") = [] ∧
    emitted [.connect "B", .connect "C"] (.offer "B" "sdp" "C") = [("C", .offer "sdp" "B")] :=
  ⟨(offer_goes_to_named_room_only [.connect "B"] "B" "sdp" "Z").1 (by decide)
      (Or.inl (by decide)) (by decide),
    (offer_goes_to_named_room_only [.connect "B", .connect "C"] "B" "sdp" "C").2.2.1
      (by decide) (by decide) (by decide)⟩

/-- C4, as stated, fails: while A is publishing, an offer from viewer B whose
payload names viewer C is delivered to C and not to A. -/
theorem offer_not_routed_to_publisher_counterexample :
    (run [.connect "A", .connect "B", .connect "C", .viewerJoin "B" "bob" "10.0.0.2" none,
      .viewerJoin "C" "cy" "10.0.0.3" none, .streamStart "A" ⟨0, "t1", "r1"⟩]).adminRoom
        = ["A"] ∧
    emitted [.connect "A", .connect "B", .connect "C",
      .viewerJoin "B" "bob" "10.0.0.2" none, .viewerJoin "C" "cy" "10.0.0.3" none,
      .streamStart "A" ⟨0, "t1", "r1"⟩] (.offer "B" "sdp" "C") = [("C", .offer "sdp" "B")] := by
  decide

/-- C4, amended: in a reachable state in which A is in the publisher room, an
offer from a live connection B other than A whose payload names `streamerId`
A causes exactly one delivery: the offer unchanged, with `viewerId` B, to A. -/
theorem offer_naming_publisher_reaches_it (evs : List Event) (A B : SocketId) (o : String)
    (hA : A ∈ (run evs).adminRoom) (hB : B ∈ (run evs).sockets) (hne : B ≠ A) :
    emitted evs (.offer B o A) = [(A, .offer o B)] := by
  have hi := inv_run evs
  simp only [emitted, step, if_pos hB, onOffer]
  exact socketTo_socket hi (hi.admin_sub A hA) (fun h => hne h.symm) _

/-- Instance of the amended C4: viewer B names publisher A in its offer. -/
theorem offer_naming_publisher_reaches_it_witness :
    emitted [.connect "A", .connect "B", .viewerJoin "B" "bob" "10.0.0.2" none,
      .streamStart "A" ⟨0, "t1", "r1"⟩] (.offer "B" "sdp" "A") = [("A", .offer "sdp" "B")] :=
  offer_naming_publisher_reaches_it [.connect "A", .connect "B",
    .viewerJoin "B" "bob" "10.0.0.2" none, .streamStart "A" ⟨0, "t1", "r1"⟩] "A" "B" "sdp"
    (by decide) (by decide) (by decide)

/-- C5, as stated, fails: an answer whose `viewerId` is the string
`viewer-room` names no live connection, yet it is delivered to both viewers. -/
theorem answer_to_room_name_counterexample :
    "viewer-room" ∉ (run [.connect "A", .connect "B", .connect "C",
      .viewerJoin "B" "bob" "10.0.0.2" none, .viewerJoin "C" "cy" "10.0.0.3" none,
      .streamStart "A" ⟨0, "t1", "r1"⟩]).sockets ∧
    emitted [.connect "A", .connect "B", .connect "C",
      .viewerJoin "B" "bob" "10.0.0.2" none, .viewerJoin "C" "cy" "10.0.0.3" none,
      .streamStart "A" ⟨0, "t1", "r1"⟩] (.answer "A" "sdp" "viewer-room") =
      [("B", .answer "sdp"), ("C", .answer "sdp")] := by
  decide

/-- C5, amended: for an answer sent by a live connection p naming `viewerId`
v, when v is a live connection other than p the answer is delivered unchanged
to v and to nobody else; when v is p itself, or is neither a live connection
nor the name of one of the two rooms, nothing is delivered. -/
theorem answer_reaches_named_connection_only (evs : List Event) (p : SocketId) (a : String)
    (v : String) (hp : p ∈ (run evs).sockets) :
    (v ∈ (run evs).sockets → v ≠ p → emitted evs (.answer p a v) = [(v, .answer a)]) ∧
    (v = p → emitted evs (.answer p a v) = []) ∧
    (v ∉ (run evs).sockets → v ≠ ADMIN_ROOM → v ≠ VIEWER_ROOM →
      emitted evs (.answer p a v) = []) := by
  have hi := inv_run evs
  simp only [emitted, step, if_pos hp, onAnswer]
  refine ⟨fun hv hne => socketTo_socket hi hv hne _, fun hv => ?_,
    fun hv h1 h2 => socketTo_none h1 h2 hv _⟩
  subst hv
  exact socketTo_self hi hp _

/-- Instance of the amended C5: A answers the live connection B. -/
theorem answer_reaches_named_connection_only_witness :
    emitted [.connect "A", .connect "B", .connect "C"] (.answer "A" "sdp" "B") =
      [("B", .answer "sdp")] :=
  (answer_reaches_named_connection_only [.connect "A", .connect "B", .connect "C"]
    "A" "sdp" "B" (by decide)).1 (by decide) (by decide)

/-- C6, the code at the failing input: A starts and then ends the stream;
`streamActive` is false, yet B, joining afterwards, is sent `stream-available`
naming A, because A is still a member of the publisher room. -/
theorem join_after_stream_end_announces_stream :
    (run [.connect "A", .connect "B", .streamStart "A" ⟨0, "t1", "r1"⟩,
      .streamEnd "A"]).streamActive = false ∧
    (run [.connect "A", .connect "B", .streamStart "A" ⟨0, "t1", "r1"⟩,
      .streamEnd "A"]).adminRoom = ["A"] ∧
    emitted [.connect "A", .connect "B", .streamStart "A" ⟨0, "t1", "r1"⟩, .streamEnd "A"]
      (.viewerJoin "B" "bob" "10.0.0.2" none) =
      [("A", .viewersUpdate 1 [⟨"bob", "Unknown", "10.0.0.2"⟩]),
       ("B", .viewersUpdate 1 [⟨"bob", "Unknown", "10.0.0.2"⟩]),
       ("B", .streamAvailable "A")] := by
  decide

/-- C7: a chat log built from the empty log by any sequence of appends is the
last `min n 100` of the appended records, in order; so is the server's log
after any event sequence, with respect to the records it accepted; and after
the 101 records `f 0 .. f 100` the log is `f 1 .. f 100`. -/
theorem chat_history_is_last_hundred :
    (∀ ms : List ChatMessage,
      ms.foldl pushChat [] = ms.drop (ms.length - 100) ∧
      (ms.foldl pushChat []).length = min ms.length 100) ∧
    (∀ evs : List Event,
      (run evs).chatHistory = (accepted evs).drop ((accepted evs).length - 100) ∧
      (run evs).chatHistory.length = min (accepted evs).length 100) ∧
    (∀ f : Nat → ChatMessage,
      ((List.range 101).map f).foldl pushChat [] = (List.range' 1 100).map f) := by
  have key : ∀ ms : List ChatMessage,
      ms.foldl pushChat [] = ms.drop (ms.length - 100) ∧
      (ms.foldl pushChat []).length = min ms.length 100 := by
    intro ms
    have h := foldl_pushChat ms
    simp only [MAX_CHAT_HISTORY] at h
    refine ⟨h, ?_⟩
    rw [h, List.length_drop]
    omega
  refine ⟨key, ?_, ?_⟩
  · intro evs
    rw [chatHistory_run]
    exact key _
  · intro f
    rw [(key _).1, List.length_map, List.length_range, ← List.map_drop]
    rfl

/-- C8: after every event sequence the size of `activeViewers`, which is the
count sent in `viewers:update`, is the number of connections that have
declared themselves viewers and have not disconnected since. -/
theorem viewer_count_is_live_viewers (evs : List Event) :
    (run evs).activeViewers.length = (liveViewers evs).length ∧
    viewersUpdate (run evs) =
      .viewersUpdate (liveViewers evs).length ((run evs).activeViewers.map Prod.snd) := by
  refine ⟨length_activeViewers evs, ?_⟩
  rw [viewersUpdate, length_activeViewers]

/-- C9: running the disconnect of a connection a second time leaves the whole
state as the first run left it, both for the handler run twice and for the
event processed twice. -/
theorem disconnect_twice_is_disconnect_once (s : State) (c : SocketId) :
    (onDisconnect (onDisconnect s c).1 c).1 = (onDisconnect s c).1 ∧
    (step (step s (.disconnect c)).1 (.disconnect c)).1 = (step s (.disconnect c)).1 := by
  constructor
  · simp [onDisconnect, leaveAll, mapDelete, List.filter_filter]
  · by_cases hc : c ∈ s.sockets
    · have hn : c ∉ (onDisconnect s c).1.sockets := by
        simp [onDisconnect, leaveAll]
      simp only [step, if_pos hc, if_neg hn]
    · simp only [step, if_neg hc]

/-- C10, as stated, fails: while A is publishing, a `stream:end` from the
bystander C switches `streamActive` off and sends `stream-ended` to viewer B. -/
theorem stream_end_from_bystander_counterexample :
    (run [.connect "A", .connect "B", .connect "C", .viewerJoin "B" "bob" "10.0.0.2" none,
      .streamStart "A" ⟨0, "t1", "r1"⟩]).adminRoom = ["A"] ∧
    (step (run [.connect "A", .connect "B", .connect "C",
      .viewerJoin "B" "bob" "10.0.0.2" none, .streamStart "A" ⟨0, "t1", "r1"⟩])
      (.streamEnd "C")).1.streamActive = false ∧
    emitted [.connect "A", .connect "B", .connect "C",
      .viewerJoin "B" "bob" "10.0.0.2" none, .streamStart "A" ⟨0, "t1", "r1"⟩]
      (.streamEnd "C") = [("B", .streamEnded)] := by
  decide

/-- C10, amended: in every reachable state a `stream:end` from any live
connection c, publisher or not, switches `streamActive` off and sends
`stream-ended` to every member of the viewer room other than c; the publisher
room is left as it was. -/
theorem stream_end_from_any_connection (evs : List Event) (c : SocketId)
    (hc : c ∈ (run evs).sockets) :
    (step (run evs) (.streamEnd c)).1.streamActive = false ∧
    (step (run evs) (.streamEnd c)).1.adminRoom = (run evs).adminRoom ∧
    emitted evs (.streamEnd c) =
      ((run evs).viewerRoom.filter (fun r => r ≠ c)).map (fun r => (r, .streamEnded)) := by
  have hs : step (run evs) (.streamEnd c) = onStreamEnd (run evs) c := by
    simp only [step, if_pos hc]
  rw [emitted, hs]
  refine ⟨rfl, rfl, ?_⟩
  simp [onStreamEnd, socketTo, roomMembers, ADMIN_ROOM, VIEWER_ROOM]

/-- Instance of the amended C10: publisher A ends its own stream. -/
theorem stream_end_from_any_connection_witness :
    (step (run [.connect "A", .connect "B", .streamStart "A" ⟨0, "t1", "r1"⟩])
      (.streamEnd "A")).1.streamActive = false :=
  (stream_end_from_any_connection [.connect "A", .connect "B",
    .streamStart "A" ⟨0, "t1", "r1"⟩] "A" (by decide)).1


/-- C11, as stated, fails: a payload whose id is the empty string, or the
number 0, carries an id, yet the record is stored and broadcast under the
server-generated id. -/
theorem falsy_id_replaced_counterexample :
    (ChatPayload.object (.str "ann") (.str "hi") (.str "09:00") (.str "")).id = .str "" ∧
    (sanitizedMessage (.object (.str "ann") (.str "hi") (.str "09:00") (.str ""))
      "t1" "r1").id = .str "r1" ∧
    (sanitizedMessage (.object (.str "ann") (.str "hi") (.str "09:00") (.num 0))
      "t1" "r1").id = .str "r1" ∧
    emitted [.connect "A"] (.chatMessage "A"
      (.object (.str "ann") (.str "hi") (.str "09:00") (.str "")) "t1" "r1") =
      [("A", .chatMessage ⟨.str "ann", .str "hi", "t1", .str "r1"⟩)] := by
  decide

/-- C11, amended: for a `chat:message` from a live connection with any payload
other than `null` and `undefined`, the record keeps the payload's username and
message (`undefined` where the payload has none), carries the server's clock
reading whatever timestamp the payload has, keeps the payload's id when it is
truthy and carries the server-generated id when it is `undefined`, `null`,
`false`, `0` or the empty string; that one record is sent to every live
connection, the sender included, and is the last entry of the log. For a
`null` or `undefined` payload nothing is stored and nothing is sent. -/
theorem chat_record_stored_and_broadcast (evs : List Event) (c : SocketId) (p : ChatPayload)
    (now rand : String) (hc : c ∈ (run evs).sockets) :
    (p.throws = true ↔ p = .value .undefined ∨ p = .value .null) ∧
    (p.throws = true →
      step (run evs) (.chatMessage c p now rand) = (run evs, [])) ∧
    (p.throws = false →
      (sanitizedMessage p now rand).username = p.username ∧
      (sanitizedMessage p now rand).message = p.message ∧
      (sanitizedMessage p now rand).timestamp = now ∧
      (truthyVal p.id = true → (sanitizedMessage p now rand).id = p.id) ∧
      (truthyVal p.id = false → (sanitizedMessage p now rand).id = .str rand) ∧
      (truthyVal p.id = false ↔
        p.id = .undefined ∨ p.id = .null ∨ p.id = .bool false ∨ p.id = .num 0 ∨
          p.id = .str "") ∧
      emitted evs (.chatMessage c p now rand) =
        (run evs).sockets.map (fun r => (r, .chatMessage (sanitizedMessage p now rand))) ∧
      (c, OutMsg.chatMessage (sanitizedMessage p now rand)) ∈
        emitted evs (.chatMessage c p now rand) ∧
      (step (run evs) (.chatMessage c p now rand)).1.chatHistory.getLast? =
        some (sanitizedMessage p now rand)) := by
  have hstep : step (run evs) (.chatMessage c p now rand) =
      onChatMessage (run evs) p now rand := by
    simp only [step, if_pos hc]
  refine ⟨?_, ?_, ?_⟩
  · cases p with
    | object u m t i => simp [ChatPayload.throws]
    | value v => cases v <;> simp [ChatPayload.throws]
  · intro ht
    rw [hstep, onChatMessage, if_pos ht]
  · intro ht
    have hlog : (onChatMessage (run evs) p now rand).1.chatHistory =
        pushChat (run evs).chatHistory (sanitizedMessage p now rand) := by
      rw [onChatMessage, if_neg (by simp [ht])]
    have hem : emitted evs (.chatMessage c p now rand) =
        (run evs).sockets.map (fun r => (r, .chatMessage (sanitizedMessage p now rand))) := by
      rw [emitted, hstep, onChatMessage, if_neg (by simp [ht])]
      rfl
    refine ⟨rfl, rfl, rfl, ?_, ?_, ?_, hem, ?_, ?_⟩
    · intro hi
      simp [sanitizedMessage, hi]
    · intro hi
      simp [sanitizedMessage, hi]
    · cases hid : p.id with
      | undefined => simp [truthyVal]
      | null => simp [truthyVal]
      | bool b => cases b <;> simp [truthyVal]
      | num n => simp [truthyVal]
      | str x => simp [truthyVal]
      | composite n => simp [truthyVal]
    · rw [hem, List.mem_map]
      exact ⟨c, hc, rfl⟩
    · rw [hstep, hlog]
      unfold pushChat
      simp only
      split
      · rename_i hlen
        cases hh : (run evs).chatHistory with
        | nil => simp [hh, MAX_CHAT_HISTORY] at hlen
        | cons a rest => simp
      · simp

/-- Instances of the amended C11 at the live connection A: a payload with id
`x` keeps it, and the string payload `hello` is stored and sent back with
`undefined` username and message under the server-generated id. -/
theorem chat_record_stored_and_broadcast_witness :
    (sanitizedMessage (.object (.str "ann") (.str "hi") (.str "09:00") (.str "x"))
      "t1" "r1").id = .str "x" ∧
    emitted [.connect "A"] (.chatMessage "A" (.value (.str "hello")) "t1" "r1") =
      [("A", .chatMessage ⟨.undefined, .undefined, "t1", .str "r1"⟩)] :=
  ⟨((chat_record_stored_and_broadcast [.connect "A"] "A"
      (.object (.str "ann") (.str "hi") (.str "09:00") (.str "x")) "t1" "r1"
      (by decide)).2.2 (by decide)).2.2.2.1 (by decide),
    ((chat_record_stored_and_broadcast [.connect "A"] "A" (.value (.str "hello")) "t1" "r1"
      (by decide)).2.2 (by decide)).2.2.2.2.2.2.1⟩

/-- C12, the code at the failing input: connection A posts two messages under
the same id `x`; the server keeps both, sends both in `chat:history`, and the
page that handles this history shows the id `x` twice. -/
theorem history_shows_an_id_twice :
    emitted [.connect "A",
      .chatMessage "A" (.object (.str "ann") (.str "hi") .undefined (.str "x")) "t1" "r1",
      .chatMessage "A" (.object (.str "ann") (.str "again") .undefined (.str "x")) "t2" "r2"]
      (.chatHistory "A") =
      [("A", .chatHistory [⟨.str "ann", .str "hi", "t1", .str "x"⟩,
        ⟨.str "ann", .str "again", "t2", .str "x"⟩])] ∧
    clientRun [.chatHistory (some [⟨.str "ann", .str "hi", "t1", .str "x"⟩,
      ⟨.str "ann", .str "again", "t2", .str "x"⟩])] =
      [⟨.str "ann", .str "hi", "t1", .str "x"⟩, ⟨.str "ann", .str "again", "t2", .str "x"⟩] ∧
    ¬ ((clientRun [.chatHistory (some [⟨.str "ann", .str "hi", "t1", .str "x"⟩,
      ⟨.str "ann", .str "again", "t2", .str "x"⟩])]).map (fun m => m.id)).Nodup ∧
    clientRun [.chatMessage ⟨.str "ann", .str "hi", "t1", .str "x"⟩,
      .chatMessage ⟨.str "ann", .str "again", "t2", .str "x"⟩] =
      [⟨.str "ann", .str "hi", "t1", .str "x"⟩] := by
  decide

/-- C13, as stated, fails: a connection that sends `stream:start` and then
`viewer:join` is a member of both rooms and gains a presence entry. -/
theorem both_rooms_counterexample :
    "A" ∈ (run [.connect "A", .streamStart "A" ⟨0, "t1", "r1"⟩,
      .viewerJoin "A" "ann" "10.0.0.1" none]).adminRoom ∧
    "A" ∈ (run [.connect "A", .streamStart "A" ⟨0, "t1", "r1"⟩,
      .viewerJoin "A" "ann" "10.0.0.1" none]).viewerRoom ∧
    (run [.connect "A", .streamStart "A" ⟨0, "t1", "r1"⟩]).activeViewers = [] ∧
    (run [.connect "A", .streamStart "A" ⟨0, "t1", "r1"⟩,
      .viewerJoin "A" "ann" "10.0.0.1" none]).activeViewers =
      [("A", ⟨"ann", "Unknown", "10.0.0.1"⟩)] := by
  decide

/-- C13, amended: membership follows the role-declaring events, the two
roles being independent. After every event sequence the publisher room holds
exactly the connections that have sent `stream:start` since they connected,
and the viewer room and the presence map exactly those that have sent
`viewer:join`. A live connection that sends `stream:start` is in the publisher
room afterwards, one that sends `viewer:join` is in the viewer room and in
presence afterwards, and one that sends both, in either order, is in both
rooms. A membership is kept through every event other than the connection's
own disconnect, which removes it from both rooms and from presence; a further
`stream:start` from a publisher changes neither room nor presence, and a
further `viewer:join` from a viewer changes neither room nor the keys of the
presence map. -/
theorem memberships_kept_until_disconnect (evs : List Event) (c : SocketId) :
    (∀ e, e ≠ .disconnect c →
      (c ∈ (run evs).adminRoom → c ∈ (step (run evs) e).1.adminRoom) ∧
      (c ∈ (run evs).viewerRoom → c ∈ (step (run evs) e).1.viewerRoom ∧
        c ∈ (step (run evs) e).1.activeViewers.map Prod.fst)) ∧
    (c ∉ (step (run evs) (.disconnect c)).1.adminRoom ∧
      c ∉ (step (run evs) (.disconnect c)).1.viewerRoom ∧
      c ∉ (step (run evs) (.disconnect c)).1.activeViewers.map Prod.fst) ∧
    (∀ d, c ∈ (run evs).adminRoom →
      (step (run evs) (.streamStart c d)).1.adminRoom = (run evs).adminRoom ∧
      (step (run evs) (.streamStart c d)).1.viewerRoom = (run evs).viewerRoom ∧
      (step (run evs) (.streamStart c d)).1.activeViewers = (run evs).activeViewers) ∧
    (∀ u ip geo, c ∈ (run evs).viewerRoom →
      (step (run evs) (.viewerJoin c u ip geo)).1.adminRoom = (run evs).adminRoom ∧
      (step (run evs) (.viewerJoin c u ip geo)).1.viewerRoom = (run evs).viewerRoom ∧
      (step (run evs) (.viewerJoin c u ip geo)).1.activeViewers.map Prod.fst =
        (run evs).activeViewers.map Prod.fst) ∧
    ((c ∈ (run evs).adminRoom ↔ (declared evs c).publisher = true) ∧
      (c ∈ (run evs).viewerRoom ↔ (declared evs c).viewer = true) ∧
      (c ∈ (run evs).activeViewers.map Prod.fst ↔ (declared evs c).viewer = true)) ∧
    (c ∈ (run evs).sockets →
      (∀ d, c ∈ (step (run evs) (.streamStart c d)).1.adminRoom) ∧
      (∀ u ip geo, c ∈ (step (run evs) (.viewerJoin c u ip geo)).1.viewerRoom ∧
        c ∈ (step (run evs) (.viewerJoin c u ip geo)).1.activeViewers.map Prod.fst) ∧
      (∀ d u ip geo,
        c ∈ (run (evs ++ [.streamStart c d, .viewerJoin c u ip geo])).adminRoom ∧
        c ∈ (run (evs ++ [.streamStart c d, .viewerJoin c u ip geo])).viewerRoom ∧
        c ∈ (run (evs ++ [.viewerJoin c u ip geo, .streamStart c d])).adminRoom ∧
        c ∈ (run (evs ++ [.viewerJoin c u ip geo, .streamStart c d])).viewerRoom)) := by
  have hi := inv_run evs
  refine ⟨?_, ?_, ?_, ?_, ?_, ?_⟩
  · intro e he
    have hk := step_keeps_rooms (run evs) e c he
    refine ⟨hk.1, fun hv => ⟨hk.2 hv, ?_⟩⟩
    rw [(inv_step e hi).keys_eq]
    exact hk.2 hv
  · have hi2 := inv_step (.disconnect c) hi
    rw [hi2.keys_eq]
    by_cases hc : c ∈ (run evs).sockets
    · have hn : c ∉ (step (run evs) (.disconnect c)).1.sockets := by
        simp [step, hc, onDisconnect, leaveAll]
      exact ⟨fun h => hn (hi2.admin_sub c h), fun h => hn (hi2.viewer_sub c h),
        fun h => hn (hi2.viewer_sub c h)⟩
    · simp only [step, if_neg hc]
      exact ⟨fun h => hc (hi.admin_sub c h), fun h => hc (hi.viewer_sub c h),
        fun h => hc (hi.viewer_sub c h)⟩
  · intro d hp
    have hc := hi.admin_sub c hp
    simp only [step, if_pos hc]
    refine ⟨?_, rfl, rfl⟩
    show setAdd (run evs).adminRoom c = _
    exact setAdd_of_mem hp
  · intro u ip geo hv
    have hc := hi.viewer_sub c hv
    simp only [step, if_pos hc]
    refine ⟨rfl, ?_, ?_⟩
    · show setAdd (run evs).viewerRoom c = _
      exact setAdd_of_mem hv
    · show (mapSet (run evs).activeViewers c _).map Prod.fst = _
      rw [keys_mapSet, hi.keys_eq, setAdd_of_mem hv]
  · have ha := agrees_run evs c
    refine ⟨ha.2.1, ha.2.2, ?_⟩
    rw [hi.keys_eq]
    exact ha.2.2
  · intro hc
    refine ⟨fun d => (mem_adminRoom_streamStart hc d).1, fun u ip geo => ?_,
      fun d u ip geo => ?_⟩
    · have hv := (mem_viewerRoom_viewerJoin hc u ip geo).1
      refine ⟨hv, ?_⟩
      rw [(inv_step (.viewerJoin c u ip geo) hi).keys_eq]
      exact hv
    · have h1 := mem_adminRoom_streamStart hc d
      have h2 := mem_viewerRoom_viewerJoin hc u ip geo
      rw [run_snoc_two, run_snoc_two]
      refine ⟨?_, ?_, ?_, ?_⟩
      · exact (step_keeps_rooms _ (.viewerJoin c u ip geo) c (by simp)).1 h1.1
      · exact (mem_viewerRoom_viewerJoin h1.2 u ip geo).1
      · exact (mem_adminRoom_streamStart h2.2 d).1
      · exact (step_keeps_rooms _ (.streamStart c d) c (by simp)).2 h2.1

/-- Instances of the amended C13: publisher A stays in the publisher room when
it sends `viewer:join`, and the live connection B that sends `viewer:join` and
then `stream:start` is in the viewer room. -/
theorem memberships_kept_until_disconnect_witness :
    "A" ∈ (step (run [.connect "A", .streamStart "A" ⟨0, "t1", "r1"⟩])
      (.viewerJoin "A" "ann" "10.0.0.1" none)).1.adminRoom ∧
    "B" ∈ (run ([.connect "B"] ++ [.viewerJoin "B" "bob" "10.0.0.2" none,
      .streamStart "B" ⟨0, "t1", "r1"⟩])).viewerRoom :=
  ⟨((memberships_kept_until_disconnect [.connect "A", .streamStart "A" ⟨0, "t1", "r1"⟩]
      "A").1 (.viewerJoin "A" "ann" "10.0.0.1" none) (by decide)).1 (by decide),
    (((memberships_kept_until_disconnect [.connect "B"] "B").2.2.2.2.2 (by decide)).2.2
      ⟨0, "t1", "r1"⟩ "bob" "10.0.0.2" none).2.2.2⟩

/-- C14, the code at the failing input: viewer B, told that A is streaming and
having sent its offer to A, emits an ICE candidate; the page names B itself as
`streamerId`, so the server delivers the candidate to nobody, whereas the same
candidate naming A would reach A alone, with `viewerId` B. This holds for
every candidate of every viewer page in every reachable state. -/
theorem viewer_ice_candidate_reaches_nobody :
    viewerOnIceCandidate "B" (some "cand") = some (.iceCandidate "B" "cand" (some "B") none) ∧
    relayed [.connect "A", .connect "B", .streamStart "A" ⟨0, "t1", "r1"⟩,
      .viewerJoin "B" "bob" "10.0.0.2" none, viewerOnStreamAvailable "B" "A" "sdp"]
      (viewerOnIceCandidate "B" (some "cand")) = [] ∧
    emitted [.connect "A", .connect "B", .streamStart "A" ⟨0, "t1", "r1"⟩,
      .viewerJoin "B" "bob" "10.0.0.2" none, viewerOnStreamAvailable "B" "A" "sdp"]
      (.iceCandidate "B" "cand" (some "A") none) =
      [("A", .iceCandidate "cand" (some "B"))] ∧
    (∀ (evs : List Event) (self : SocketId) (k : Option String),
      relayed evs (viewerOnIceCandidate self k) = []) := by
  refine ⟨by decide, by decide, by decide, ?_⟩
  intro evs self k
  cases k with
  | none => rfl
  | some k =>
    show (step (run evs) (.iceCandidate self k (some self) none)).2 = []
    by_cases hc : self ∈ (run evs).sockets
    · simp only [step, if_pos hc, onIceCandidate]
      by_cases ht : truthy (some self) = true
      · rw [if_pos ht]
        exact socketTo_self (inv_run evs) hc _
      · rw [if_neg ht]
        simp [truthy]
    · simp only [step, if_neg hc]

end LiveLizzy
